import Mathlib

/-!
Verification of the Supertonic TTS service (`src/tts` of the repository)
against its natural-language specification.

The Python modules are shallowly embedded:
* byte strings (`bytes` / `bytearray`) become `List Nat`, each entry a byte
  value (Python guarantees `0 ≤ b < 256`; readers reduce entries mod 256 so
  the model is well typed on all of `Nat`);
* text becomes `List Char`;
* Python `float` durations, rates and style values become `ℚ` (the claims
  settled here are decided at inputs where exact rational arithmetic and
  IEEE double arithmetic select the same integer results);
* functions that `raise` become `Except`-valued functions.
-/

/-! ### Character classes (Python `str` / `re` semantics, ASCII fragment)

Python's `\s`, `\w`, `\d` with `re.UNICODE` cover additional non-ASCII
code points; every theorem below evaluates these classes on ASCII text
only, where the sets used here coincide with Python's. -/

def isPySpace (c : Char) : Bool :=
  c = ' ' || c = '\t' || c = '\n' || c = '\r' || c = '\x0b' || c = '\x0c'

def isAsciiLowerCh (c : Char) : Bool := 'a' ≤ c && c ≤ 'z'

def isAsciiUpperCh (c : Char) : Bool := 'A' ≤ c && c ≤ 'Z'

def isAsciiDigitCh (c : Char) : Bool := '0' ≤ c && c ≤ '9'

def isWordChar (c : Char) : Bool :=
  isAsciiLowerCh c || isAsciiUpperCh c || isAsciiDigitCh c || c = '_'

/-- Python `str.strip()`: remove leading and trailing whitespace. -/
def pyStrip (cs : List Char) : List Char :=
  ((cs.dropWhile isPySpace).reverse.dropWhile isPySpace).reverse

/-! ### Little-endian byte packing (`struct.pack_into` / `struct.unpack`)

`struct.pack_into('<I', …)` writes 4 little-endian bytes, `'<H'` writes 2.
`packLE v n` is those `n` bytes; the source raises `struct.error` when the
value does not fit, the model wraps, and every theorem that reads a field
back states the wrapped value (or assumes the value fits). -/

def packLE : Nat → Nat → List Nat
  | _, 0 => []
  | v, n + 1 => v % 256 :: packLE (v / 256) n

def bytesToNatLE : List Nat → Nat
  | [] => 0
  | b :: rest => b + 256 * bytesToNatLE rest

/-- Read an `n`-byte little-endian unsigned integer at byte offset `off`,
as `struct.unpack('<I'/'<H', buffer[off:off+n])` does (Python byte values
are below 256, so the plain positional sum is the unpacked value). The
source raises on a buffer shorter than `off + n`; theorems only read
complete buffers. -/
def readLE (buf : List Nat) (off n : Nat) : Nat :=
  bytesToNatLE ((buf.drop off).take n)

/-- ASCII bytes of a literal, as Python's `b'RIFF'` etc. -/
def asciiBytes (s : String) : List Nat := s.data.map Char.toNat

/-! ### WAV header field readers, as `concatenate_wav_buffers` reads them
(`src/tts/utils.py` lines 69-71, 78). -/

def wavSampleRate (b : List Nat) : Nat := readLE b 24 4

def wavBitsPerSample (b : List Nat) : Nat := readLE b 34 2

def wavNumChannels (b : List Nat) : Nat := readLE b 22 2

def wavDataSize (b : List Nat) : Nat := readLE b 40 4

def wavAudioFormat (b : List Nat) : Nat := readLE b 20 2

/-- Data payload of a WAV buffer as `concatenate_wav_buffers` slices it:
`buffer[44 : 44 + data_size]` with `data_size` read from the header. -/
def wavDataSection (b : List Nat) : List Nat :=
  (b.drop 44).take (wavDataSize b)

/-! ### `concatenate_wav_buffers` (`src/tts/utils.py` lines 60-108)

The source preallocates `bytearray(44 + total_data_size)` and writes the
header fields and the data slices at their running offsets; this equals the
concatenation below whenever every input holds a complete data section
(`44 + data_size ≤ len(buffer)`), which is a hypothesis of every theorem
that needs it. Bytes 20-21 (the audio-format tag) are never written by the
source and stay zero. No format field of any buffer beyond the first is
ever inspected. -/

def concatHeader (sampleRate bitsPerSample channels blockAlign byteRate totalDataSize : Nat) :
    List Nat :=
  asciiBytes "RIFF" ++ packLE (36 + totalDataSize) 4 ++ asciiBytes "WAVE" ++
  asciiBytes "fmt " ++ packLE 16 4 ++ [0, 0] ++ packLE channels 2 ++
  packLE sampleRate 4 ++ packLE byteRate 4 ++ packLE blockAlign 2 ++
  packLE bitsPerSample 2 ++ asciiBytes "data" ++ packLE totalDataSize 4

def concatenate_wav_buffers : List (List Nat) → List Nat
  | [] => []
  | [b] => b
  | first :: b2 :: rest =>
    let buffers := first :: b2 :: rest
    let sample_rate := wavSampleRate first
    let bits_per_sample := wavBitsPerSample first
    let channels := wavNumChannels first
    let block_align := channels * bits_per_sample / 8
    let byte_rate := sample_rate * block_align
    let total_data_size := (buffers.map wavDataSize).sum
    concatHeader sample_rate bits_per_sample channels block_align byte_rate total_data_size ++
      (buffers.map wavDataSection).flatten

/-! ### `create_silence_buffer` (`src/tts/utils.py` lines 111-132) -/

/-- Python `int()` on a real value: truncation toward zero. -/
def pyIntTrunc (q : ℚ) : Int := q.num.tdiv q.den

/-- `silence_samples = int(duration_seconds * sample_rate)` (line 113).
For a negative sample count the source would fail building the buffer;
the claims only concern `duration_seconds ≥ 0`, where `toNat` is exact. -/
def numSilenceSamples (duration_seconds : ℚ) (sample_rate : Nat) : Nat :=
  (pyIntTrunc (duration_seconds * sample_rate)).toNat

def silenceHeader (sample_rate silence_samples : Nat) : List Nat :=
  asciiBytes "RIFF" ++ packLE (36 + silence_samples * 2) 4 ++ asciiBytes "WAVE" ++
  asciiBytes "fmt " ++ packLE 16 4 ++ packLE 1 2 ++ packLE 1 2 ++
  packLE sample_rate 4 ++ packLE (sample_rate * 2) 4 ++ packLE 2 2 ++
  packLE 16 2 ++ asciiBytes "data" ++ packLE (silence_samples * 2) 4

def create_silence_buffer (duration_seconds : ℚ) (sample_rate : Nat := 24000) : List Nat :=
  let silence_samples := numSilenceSamples duration_seconds sample_rate
  silenceHeader sample_rate silence_samples ++ List.replicate (silence_samples * 2) 0

/-! ### `validate_voice` (`src/tts/utils.py` lines 135-138) -/

def valid_voices : List String :=
  ["F1", "F2", "F3", "F4", "F5", "M1", "M2", "M3", "M4", "M5"]

def validate_voice (voice : String) : String :=
  if voice ∈ valid_voices then voice else "F1"

/-! ### `parse_rate_to_speed` (`src/tts/utils.py` lines 12-25) -/

def natOfDigits (ds : List Char) : Nat :=
  ds.foldl (fun a c => a * 10 + (c.toNat - 48)) 0

/-- `re.match(r'([+-]?)(\d+)%', rate)`: anchored at the start, trailing
characters permitted; returns the sign and the digit group's value. -/
def rateMatch (cs : List Char) : Option (Int × Nat) :=
  let signRest : Int × List Char :=
    match cs with
    | c :: r => if c = '+' then (1, r) else if c = '-' then (-1, r) else (1, cs)
    | [] => (1, cs)
  let digits := signRest.2.takeWhile isAsciiDigitCh
  let rest := signRest.2.dropWhile isAsciiDigitCh
  if digits = [] then none
  else
    match rest with
    | '%' :: _ => some (signRest.1, natOfDigits digits)
    | _ => none

def parse_rate_to_speed (rate : Option (List Char)) : ℚ :=
  match rate with
  | none => 1
  | some cs =>
    if cs = [] then 1
    else
      match rateMatch cs with
      | none => 1
      | some (sign, value) => 1 + (sign * value : ℚ) / 100

/-! ### `parse_language_segments` (`src/tts/utils.py` lines 43-57)

The regex `<([a-z]{2})>([^<]*)</\1>` scanned by `finditer`: at a match
position the body is the maximal run of non-`<` characters after the
opening tag (no backtracking helps, since the closing tag starts with `<`),
followed by the exact matching closing tag. The fuel argument bounds the
scan; each step consumes at least one character, so `cs.length` suffices. -/

def parseSegsGo : Nat → List Char → List (List Char × List Char)
  | 0, _ => []
  | _ + 1, [] => []
  | fuel + 1, c :: rest =>
    match c :: rest with
    | l :: l1 :: l2 :: r :: rest1 =>
      if l = '<' ∧ isAsciiLowerCh l1 ∧ isAsciiLowerCh l2 ∧ r = '>' then
        let body := rest1.takeWhile (fun x => x ≠ '<')
        let after := rest1.dropWhile (fun x => x ≠ '<')
        if List.isPrefixOf ['<', '/', l1, l2, '>'] after then
          let text_content := pyStrip body
          if text_content ≠ [] then
            ([l1, l2], text_content) :: parseSegsGo fuel (after.drop 5)
          else
            parseSegsGo fuel (after.drop 5)
        else
          parseSegsGo fuel rest
      else
        parseSegsGo fuel rest
    | _ => parseSegsGo fuel rest

def parse_language_segments (tagged_text : List Char) : List (List Char × List Char) :=
  parseSegsGo tagged_text.length tagged_text

/-! ### `chunk_text` (`src/tts/utils.py` lines 141-181)

Paragraph split: `re.split(r'\n\s*\n+', text.strip())`. A match of that
pattern lies inside one maximal whitespace run and exists exactly when the
run contains at least two newlines; it consumes the run from its first
newline through its last newline, leaving any surrounding non-newline
whitespace attached to the neighbouring parts. Since the source immediately
strips every part (and drops empty ones), attaching the whole run to the
separator — as `paraGo` does — produces the same paragraph list. -/

def paraGo (part run : List Char) : List Char → List (List Char)
  | [] => if run.count '\n' ≥ 2 then [part, []] else [part ++ run]
  | c :: rest =>
    if isPySpace c then paraGo part (run ++ [c]) rest
    else if run.count '\n' ≥ 2 then part :: paraGo [c] [] rest
    else paraGo (part ++ run ++ [c]) [] rest

/-- `[p.strip() for p in re.split(r'\n\s*\n+', text.strip()) if p.strip()]`
(line 155). -/
def chunkParagraphs (text : List Char) : List (List Char) :=
  ((paraGo [] [] (pyStrip text)).map pyStrip).filter (fun p => p ≠ [])

/-- Reversed abbreviation literals of the negative lookbehinds in the
sentence pattern (line 165); `isAbbrevEnd rev` holds when the text whose
reversal is `rev` ends in one of them. -/
def abbrevSuffixesRev : List (List Char) :=
  ["Mr.", "Mrs.", "Ms.", "Dr.", "Prof.", "Sr.", "Jr.", "Ph.D.", "etc.",
   "e.g.", "i.e.", "vs.", "Inc.", "Ltd.", "Co.", "Corp.", "St.", "Ave.",
   "Blvd."].map (fun s => s.data.reverse)

/-- `(?<!\b[A-Z]\.)`: the two characters before the split position are a
capital letter and a period, with a word boundary before the capital
(start of the piece counts: the character before a piece in the original
paragraph is whitespace, hence a non-word character). -/
def capitalInitialRev (rev : List Char) : Bool :=
  match rev with
  | d :: u :: rest =>
    d = '.' && isAsciiUpperCh u &&
      (match rest with
       | [] => true
       | r :: _ => !isWordChar r)
  | _ => false

def isAbbrevEnd (rev : List Char) : Bool :=
  abbrevSuffixesRev.any (fun a => List.isPrefixOf a rev) || capitalInitialRev rev

/-- Lookbehind window of the sentence pattern at a whitespace character:
`rev` is the current piece reversed. `(?<=[.!?])` plus all negative
lookbehinds. The window never reaches past the piece start: the abbreviation
literals contain no whitespace, and a piece is preceded by whitespace in
the original paragraph (the `\b[A-Z]\.` case at the piece start is covered
by `capitalInitialRev`). -/
def isSentenceBoundary (rev : List Char) : Bool :=
  match rev with
  | p :: _ => (p = '.' || p = '!' || p = '?') && !isAbbrevEnd rev
  | [] => false

/-- `re.split(pattern, paragraph)` for the sentence pattern: split at every
maximal whitespace run whose start position passes `isSentenceBoundary`;
the matched run (`\s+`, greedy) is consumed. Positions inside a run never
match (`(?<=[.!?])` fails on a whitespace predecessor). -/
def senGo (acc : List Char) (skip : Bool) : List Char → List (List Char)
  | [] => [acc.reverse]
  | c :: rest =>
    if skip && isPySpace c then senGo acc skip rest
    else if !skip && isPySpace c && isSentenceBoundary acc then
      acc.reverse :: senGo [] true rest
    else senGo (c :: acc) false rest

def splitSentences (paragraph : List Char) : List (List Char) :=
  senGo [] false paragraph

/-- Greedy sentence packing of `chunk_text` (lines 168-179): grow
`current_chunk` while `len(current) + len(sentence) + 1 <= max_len`,
otherwise flush the non-empty current chunk (stripped) and restart from
the sentence — an oversized sentence is kept whole. -/
def packSentences (max_len : Nat) : List (List Char) → List Char → List (List Char)
  | [], current => if current = [] then [] else [pyStrip current]
  | s :: rest, current =>
    if current.length + s.length + 1 ≤ max_len then
      packSentences max_len rest (current ++ (if current = [] then [] else [' ']) ++ s)
    else if current = [] then
      packSentences max_len rest s
    else
      pyStrip current :: packSentences max_len rest s

def chunk_text (text : List Char) (max_len : Nat := 300) : List (List Char) :=
  (((chunkParagraphs text).map pyStrip).filter (fun p => p ≠ [])).map
    (fun paragraph => packSentences max_len (splitSentences paragraph) []) |>.flatten

/-- Claim-side notion for C4: the whitespace-separated words of a text. -/
def wordsGo (acc : List Char) : List Char → List (List Char)
  | [] => if acc = [] then [] else [acc.reverse]
  | c :: rest =>
    if isPySpace c then
      (if acc = [] then wordsGo [] rest else acc.reverse :: wordsGo [] rest)
    else wordsGo (c :: acc) rest

def wordsOf (cs : List Char) : List (List Char) := wordsGo [] cs

/-! ### `preprocess_text` and `has_language_tags` (`src/tts/preprocessor.py`)

`normalize('NFKD', text)` (line 43) is the Unicode NFKD normalization; it is
the identity on ASCII text. All inputs the theorems below evaluate the
pipeline on are ASCII (and the general theorems do not depend on this
step's behaviour), so it is modelled as the identity. -/

def nfkdNormalize (cs : List Char) : List Char := cs

/-- Emoji code point ranges removed by the pattern of lines 46-60;
`pattern.sub('', text)` deletes every character in one of the ranges. -/
def isEmojiChar (c : Char) : Bool :=
  (0x1f600 ≤ c.toNat && c.toNat ≤ 0x1f64f) ||
  (0x1f300 ≤ c.toNat && c.toNat ≤ 0x1f5ff) ||
  (0x1f680 ≤ c.toNat && c.toNat ≤ 0x1f6ff) ||
  (0x1f700 ≤ c.toNat && c.toNat ≤ 0x1f77f) ||
  (0x1f780 ≤ c.toNat && c.toNat ≤ 0x1f7ff) ||
  (0x1f800 ≤ c.toNat && c.toNat ≤ 0x1f8ff) ||
  (0x1f900 ≤ c.toNat && c.toNat ≤ 0x1f9ff) ||
  (0x1fa00 ≤ c.toNat && c.toNat ≤ 0x1fa6f) ||
  (0x1fa70 ≤ c.toNat && c.toNat ≤ 0x1faff) ||
  (0x2600 ≤ c.toNat && c.toNat ≤ 0x26ff) ||
  (0x2700 ≤ c.toNat && c.toNat ≤ 0x27bf) ||
  (0x1f1e6 ≤ c.toNat && c.toNat ≤ 0x1f1ff)

/-- The `replacements` dict of lines 64-82 in insertion order; every key and
value is one character, so each `text.replace(k, v)` is a character map,
and no produced value is a later key. The backtick key (U+0060) is written
by code point. -/
def charReplacements : List (Char × Char) :=
  [('–', '-'), ('‑', '-'), ('—', '-'), ('_', ' '),
   ('“', '"'), ('”', '"'), ('‘', '\''), ('’', '\''),
   ('´', '\''), (Char.ofNat 0x60, '\''), ('[', ' '), (']', ' '),
   ('|', ' '), ('/', ' '), ('#', ' '), ('→', ' '), ('←', ' ')]

def applyReplacements (cs : List Char) : List Char :=
  charReplacements.foldl
    (fun s kv => s.map (fun c => if c = kv.1 then kv.2 else c)) cs

/-- `re.sub(r'[♥☆♡©\\]', '', text)` (line 87). -/
def isRemovedSymbol (c : Char) : Bool :=
  c = '♥' || c = '☆' || c = '♡' || c = '©' || c = '\\'

/-- One `re.sub(' X', 'X', text)` pass (lines 90-96): replace each
non-overlapping occurrence of space-then-`p`, scanning left to right. -/
def fixSpaceBefore (p : Char) : List Char → List Char
  | c1 :: c2 :: rest =>
    if c1 = ' ' ∧ c2 = p then c2 :: fixSpaceBefore p rest
    else c1 :: fixSpaceBefore p (c2 :: rest)
  | l => l

def spacedPunct : List Char := [',', '.', '!', '?', ';', ':', '\'']

/-- One `text.replace(qq, q)` pass: collapse each non-overlapping adjacent
pair of `q`, scanning left to right. -/
def replacePair (q : Char) : List Char → List Char
  | c1 :: c2 :: rest =>
    if c1 = q ∧ c2 = q then q :: replacePair q rest
    else c1 :: replacePair q (c2 :: rest)
  | l => l

def containsPair (q : Char) : List Char → Bool
  | c1 :: c2 :: rest => (c1 = q && c2 = q) || containsPair q (c2 :: rest)
  | _ => false

/-- The `while qq in text: text = text.replace(qq, q)` loops of lines
98-104. Each pass that finds a pair shortens the text, so `cs.length`
passes of fuel always reach the fixpoint the loop terminates at. -/
def collapsePairs (q : Char) : Nat → List Char → List Char
  | 0, cs => cs
  | fuel + 1, cs =>
    if containsPair q cs then collapsePairs q fuel (replacePair q cs) else cs

/-- `re.sub(r'\s+', ' ', text)` (line 107): each maximal whitespace run
becomes one space. -/
def collapseWsGo (prevSpace : Bool) : List Char → List Char
  | [] => []
  | c :: rest =>
    if isPySpace c then
      if prevSpace then collapseWsGo true rest
      else ' ' :: collapseWsGo true rest
    else c :: collapseWsGo false rest

/-- Character class of line 110: terminal punctuation, quotes and closing
brackets; a text not ending in one of these gets a period appended. -/
def terminalPunct : List Char :=
  ['.', '!', '?', ';', ':', ',', '\'', '"', ')', ']', '}', '…', '。', '」',
   '』', '】', '〉', '》', '›', '»']

def endsWithTerminal (cs : List Char) : Bool :=
  match cs.getLast? with
  | some c => c ∈ terminalPunct
  | none => false

/-- Lines 43-111 of `preprocess_text`: everything before the tag check. -/
def cleanupText (text : List Char) : List Char :=
  let t1 := nfkdNormalize text
  let t2 := t1.filter (fun c => !isEmojiChar c)
  let t3 := applyReplacements t2
  let t4 := t3.filter (fun c => !isRemovedSymbol c)
  let t5 := spacedPunct.foldl (fun s p => fixSpaceBefore p s) t4
  let t6 := collapsePairs '"' t5.length t5
  let t7 := collapsePairs '\'' t6.length t6
  let t8 := collapsePairs (Char.ofNat 0x60) t7.length t7
  let t9 := pyStrip (collapseWsGo false t8)
  if endsWithTerminal t9 then t9 else t9 ++ ['.']

/-- `has_language_tags` (`src/tts/preprocessor.py` lines 25-27):
`re.match(r'^<([a-z]{2})>', text)`. -/
def has_language_tags (text : List Char) : Bool :=
  match text with
  | c1 :: c2 :: c3 :: c4 :: _ =>
    c1 = '<' && isAsciiLowerCh c2 && isAsciiLowerCh c3 && c4 = '>'
  | _ => false

/-- `preprocess_text` (`src/tts/preprocessor.py` lines 30-117). -/
def preprocess_text (text : List Char) (lang : List Char) : List Char :=
  let t := cleanupText text
  if has_language_tags t then t
  else ['<'] ++ lang ++ ['>'] ++ t ++ ['<', '/'] ++ lang ++ ['>']

/-! ### `AssetManager` (`src/tts/asset_manager.py`)

`VOICES` (`src/tts/types.py`) maps the ten voice keys to `.bin` names; the
gate of `ensure_voice_style` (lines 114-115) raises `ValueError` for a key
outside it. Only the validation gate and the binary-to-JSON conversion have
algorithmic content; downloads and file writes are external effects. -/

def voicesKeys : List String :=
  ["F1", "F2", "F3", "F4", "F5", "M1", "M2", "M3", "M4", "M5"]

def invalidKeyMsg (voice_key : String) : List Char :=
  "Invalid voice key: ".data ++ voice_key.data ++
  ". Valid keys: [F1, F2, F3, F4, F5, M1, M2, M3, M4, M5]".data

/-- Validation gate at the top of `AssetManager.ensure_voice_style`
(lines 114-115): `if voice_key not in VOICES: raise ValueError(...)`. -/
def ensureVoiceStyleGate (voice_key : String) : Except (List Char) Unit :=
  if voice_key ∈ voicesKeys then Except.ok () else Except.error (invalidKeyMsg voice_key)

/-- Structured voice style record written as JSON by
`_convert_voice_bin_to_json` (lines 187-196). Float values are carried as
rationals; the conversion never inspects them. -/
structure VoiceStyleJson where
  ttl_dims : List Nat
  ttl_data : List ℚ
  dp_dims : List Nat
  dp_data : List ℚ
deriving DecidableEq

/-- Error message of lines 177-180, with both the actual and the expected
float counts interpolated. -/
def sizeErrMsg (bin_path : List Char) (actual expected latent_dim base_chunk_size : Nat) :
    List Char :=
  "Voice file ".data ++ bin_path ++ " has unexpected size ".data ++
  (toString actual).data ++ ". Expected ".data ++ (toString expected).data ++
  " floats (latent_dim=".data ++ (toString latent_dim).data ++
  ", base_chunk_size=".data ++ (toString base_chunk_size).data ++ ").".data

/-- `AssetManager._convert_voice_bin_to_json` (lines 151-202): the length
check against `latent_dim * base_chunk_size + 1 * base_chunk_size` floats,
then the split into the `style_ttl` and `style_dp` tensors. On the error
branch nothing is written (`raise` precedes the `open`/`json.dump`). -/
def convert_voice_bin_to_json (bin_path : List Char) (latent_dim base_chunk_size : Nat)
    (data : List ℚ) : Except (List Char) VoiceStyleJson :=
  let ttl_size := latent_dim * base_chunk_size
  let dp_size := 1 * base_chunk_size
  let expected_size := ttl_size + dp_size
  if data.length ≠ expected_size then
    Except.error (sizeErrMsg bin_path data.length expected_size latent_dim base_chunk_size)
  else
    Except.ok
      { ttl_dims := [1, latent_dim, base_chunk_size]
        ttl_data := data.take ttl_size
        dp_dims := [1, 1, base_chunk_size]
        dp_data := data.drop ttl_size }

/-! ### `TTSService.synthesize_mixed` buffer assembly
(`src/tts/service.py` lines 181-203)

For each parsed segment the loop appends the segment's synthesized WAV
buffer and then, when `segments.index((lang, text)) < len(segments) - 1`,
the silence buffer. Python's `list.index` returns the index of the FIRST
occurrence of the element. The per-segment synthesis (preprocessing plus
neural inference) is opaque here and passed in as `synth`. -/

def mixedAudioBuffers (segments : List (List Char × List Char))
    (synth : List Char × List Char → List Nat) (silence_buffer : List Nat) :
    List (List Nat) :=
  (segments.map (fun seg =>
    [synth seg] ++
      (if List.indexOf seg segments < segments.length - 1 then [silence_buffer] else []))).flatten

/-! ## Supporting lemmas -/

/-- Python `int()` agrees with the floor on nonnegative rationals. -/
theorem pyIntTrunc_eq_floor (q : ℚ) (h : 0 ≤ q) : pyIntTrunc q = ⌊q⌋ := by
  rw [Rat.floor_def, pyIntTrunc]
  exact Int.tdiv_eq_ediv (by exact_mod_cast Rat.num_nonneg.mpr h) (by positivity)

theorem bytesToNatLE_packLE_four (v : Nat) : bytesToNatLE (packLE v 4) = v % 4294967296 := by
  simp only [packLE, bytesToNatLE]
  omega

theorem pyStrip_length_le (cs : List Char) : (pyStrip cs).length ≤ cs.length := by
  simp only [pyStrip, List.length_reverse]
  have h1 : ∀ (l : List Char), (l.dropWhile isPySpace).length ≤ l.length := fun l =>
    List.Sublist.length_le
      (List.dropWhile_sublist isPySpace : List.Sublist (l.dropWhile isPySpace) l)
  calc ((cs.dropWhile isPySpace).reverse.dropWhile isPySpace).length
      ≤ (cs.dropWhile isPySpace).reverse.length := h1 _
    _ ≤ cs.length := by
        rw [List.length_reverse]
        exact h1 _

/-! ## Claims -/

/-- C10: `concatenate_wav_buffers` returns the empty byte string on the
empty list — neither a 44-byte WAV header nor an error — and returns the
sole buffer byte-identical on a singleton list, for every buffer whatsoever
(its header is never parsed or validated). -/
theorem concatenate_empty_and_singleton :
    concatenate_wav_buffers [] = [] ∧ ∀ b : List Nat, concatenate_wav_buffers [b] = b :=
  ⟨rfl, fun _ => rfl⟩

/-- C2 counterexample: the unknown voice key `"X1"` is not rejected by the
synthesis path; `validate_voice` silently substitutes the different voice
`"F1"`, and the downstream `ensure_voice_style` gate then succeeds, so no
invalid-key error is ever reported for this call. -/
theorem unknown_voice_key_not_rejected :
    "X1" ∉ valid_voices ∧ validate_voice "X1" = "F1" ∧ "X1" ≠ "F1" ∧
    ensureVoiceStyleGate (validate_voice "X1") = Except.ok () :=
  ⟨by decide, by decide, by decide, rfl⟩

/-- C2 amended: a voice key outside the closed ten-key set passed to the
synthesis entry points is silently replaced by the default voice `"F1"`
(`validate_voice`), after which the `ensure_voice_style` invalid-key gate
succeeds; no invalid-parameter error is reported for an unknown key on
these paths. -/
theorem unknown_voice_key_silently_defaults (v : String) (h : v ∉ valid_voices) :
    validate_voice v = "F1" ∧ ensureVoiceStyleGate (validate_voice v) = Except.ok () := by
  have h1 : validate_voice v = "F1" := by simp [validate_voice, h]
  rw [h1]
  exact ⟨rfl, rfl⟩

/-- Witness for C2 at the concrete unknown key `"X1"`. -/
theorem unknown_voice_key_silently_defaults_witness :
    "X1" ∉ valid_voices ∧
    (validate_voice "X1" = "F1" ∧ ensureVoiceStyleGate (validate_voice "X1") = Except.ok ()) :=
  ⟨by decide, unknown_voice_key_silently_defaults "X1" (by decide)⟩

/-- C9: a raw voice binary whose float count differs from
`latent_dim * base_chunk_size + base_chunk_size` makes the conversion fail
with the size-mismatch error whose message contains both the actual and the
expected float counts, and no structured style value is ever produced. -/
theorem convert_size_mismatch (p : List Char) (ld bcs : Nat) (data : List ℚ)
    (h : data.length ≠ ld * bcs + bcs) :
    convert_voice_bin_to_json p ld bcs data =
      Except.error (sizeErrMsg p data.length (ld * bcs + 1 * bcs) ld bcs) ∧
    (∃ pre post, sizeErrMsg p data.length (ld * bcs + 1 * bcs) ld bcs =
      pre ++ (toString data.length).data ++ post) ∧
    (∃ pre post, sizeErrMsg p data.length (ld * bcs + 1 * bcs) ld bcs =
      pre ++ (toString (ld * bcs + 1 * bcs)).data ++ post) ∧
    ∀ v, convert_voice_bin_to_json p ld bcs data ≠ Except.ok v := by
  have hc : data.length ≠ ld * bcs + 1 * bcs := by simpa [one_mul] using h
  have h1 : convert_voice_bin_to_json p ld bcs data =
      Except.error (sizeErrMsg p data.length (ld * bcs + 1 * bcs) ld bcs) := by
    simp only [convert_voice_bin_to_json]
    rw [if_pos hc]
  refine ⟨h1, ?_, ?_, ?_⟩
  · exact ⟨"Voice file ".data ++ p ++ " has unexpected size ".data,
      ". Expected ".data ++ (toString (ld * bcs + 1 * bcs)).data ++
        " floats (latent_dim=".data ++ (toString ld).data ++
        ", base_chunk_size=".data ++ (toString bcs).data ++ ").".data,
      by simp [sizeErrMsg, List.append_assoc]⟩
  · exact ⟨"Voice file ".data ++ p ++ " has unexpected size ".data ++
        (toString data.length).data ++ ". Expected ".data,
      " floats (latent_dim=".data ++ (toString ld).data ++
        ", base_chunk_size=".data ++ (toString bcs).data ++ ").".data,
      by simp [sizeErrMsg, List.append_assoc]⟩
  · intro v
    rw [h1]
    simp

/-- Witness for C9: a one-float buffer against `latent_dim = 2`,
`base_chunk_size = 3` (expected count 9). -/
theorem convert_size_mismatch_witness :
    ([(0 : ℚ)].length ≠ 2 * 3 + 3) ∧
    (convert_voice_bin_to_json "F1.bin".data 2 3 [(0 : ℚ)] =
      Except.error (sizeErrMsg "F1.bin".data [(0 : ℚ)].length (2 * 3 + 1 * 3) 2 3) ∧
    (∃ pre post, sizeErrMsg "F1.bin".data [(0 : ℚ)].length (2 * 3 + 1 * 3) 2 3 =
      pre ++ (toString [(0 : ℚ)].length).data ++ post) ∧
    (∃ pre post, sizeErrMsg "F1.bin".data [(0 : ℚ)].length (2 * 3 + 1 * 3) 2 3 =
      pre ++ (toString (2 * 3 + 1 * 3)).data ++ post) ∧
    ∀ v, convert_voice_bin_to_json "F1.bin".data 2 3 [(0 : ℚ)] ≠ Except.ok v) :=
  ⟨by decide, convert_size_mismatch "F1.bin".data 2 3 [(0 : ℚ)] (by decide)⟩

/-- C8: the rate option `'-100%'` is accepted by `parse_rate_to_speed` and
yields speed 0, and `'-150%'` yields speed −1/2; the speed placed into the
inference options and used as the divisor of the predicted duration is
therefore not strictly positive for these accepted rate strings. -/
theorem rate_option_yields_nonpositive_speed :
    parse_rate_to_speed (some ("-100%".data)) = 0 ∧
    parse_rate_to_speed (some ("-150%".data)) = -(1 / 2 : ℚ) ∧
    ¬ (0 < parse_rate_to_speed (some ("-100%".data))) := by
  have h100 : rateMatch ("-100%".data) = some (-1, 100) := by decide
  have h150 : rateMatch ("-150%".data) = some (-1, 150) := by decide
  have hne1 : ("-100%".data : List Char) ≠ [] := by decide
  have hne2 : ("-150%".data : List Char) ≠ [] := by decide
  refine ⟨?_, ?_, ?_⟩
  · simp only [parse_rate_to_speed, if_neg hne1, h100]
    norm_num
  · simp only [parse_rate_to_speed, if_neg hne2, h150]
    norm_num
  · simp only [parse_rate_to_speed, if_neg hne1, h100]
    norm_num

/-- C5: on the tagged text `"<en>hi</en> <es>hola</es> <en>hi</en>"` — three
segments, the last a duplicate of the first — the `synthesize_mixed` loop
appends a silence buffer after the LAST segment as well (because
`segments.index((lang, text))` finds the first occurrence), producing 3
silence buffers for 3 segments instead of the documented 2; the last
element of the assembled buffer list is the silence buffer. -/
theorem mixed_silence_after_last_duplicate :
    parse_language_segments "<en>hi</en> <es>hola</es> <en>hi</en>".data =
      [("en".data, "hi".data), ("es".data, "hola".data), ("en".data, "hi".data)] ∧
    mixedAudioBuffers [("en".data, "hi".data), ("es".data, "hola".data), ("en".data, "hi".data)]
      (fun _ => [1]) [0] = [[1], [0], [1], [0], [1], [0]] ∧
    (mixedAudioBuffers [("en".data, "hi".data), ("es".data, "hola".data), ("en".data, "hi".data)]
      (fun _ => [1]) [0]).getLast? = some [0] ∧
    (mixedAudioBuffers [("en".data, "hi".data), ("es".data, "hola".data), ("en".data, "hi".data)]
      (fun _ => [1]) [0]).length ≠ 3 + (3 - 1) :=
  ⟨by decide, by decide, by decide, by decide⟩

/-- C7 counterexample: `create_silence_buffer` truncates rather than
rounds. At duration 9/10 s and sample rate 1 Hz the code produces a buffer
with 0 samples (44 header bytes, no data), while `round(0.9 * 1) = 1`
sample is what the claim requires. -/
theorem silence_buffer_truncation_example :
    numSilenceSamples (9 / 10 : ℚ) 1 = 0 ∧
    round ((9 / 10 : ℚ) * (1 : Nat)) = 1 ∧
    (create_silence_buffer (9 / 10 : ℚ) 1).length = 44 ∧
    (create_silence_buffer (9 / 10 : ℚ) 1).length ≠
      44 + (round ((9 / 10 : ℚ) * (1 : Nat))).toNat * 2 := by
  have h1 : numSilenceSamples (9 / 10 : ℚ) 1 = 0 := by
    have h : pyIntTrunc ((9 : ℚ) / 10 * (1 : Nat)) = ⌊((9 : ℚ) / 10 * (1 : Nat))⌋ :=
      pyIntTrunc_eq_floor _ (by norm_num)
    simp only [numSilenceSamples, h]
    norm_num
  have h2 : round ((9 / 10 : ℚ) * (1 : Nat)) = 1 := by norm_num [round_eq]
  have h3 : (create_silence_buffer (9 / 10 : ℚ) 1).length = 44 := by
    have e : (create_silence_buffer (9 / 10 : ℚ) 1).length =
        (silenceHeader 1 (numSilenceSamples (9 / 10 : ℚ) 1)).length +
          (List.replicate (numSilenceSamples (9 / 10 : ℚ) 1 * 2) (0 : Nat)).length :=
      List.length_append _ _
    have e44 : (silenceHeader 1 (numSilenceSamples (9 / 10 : ℚ) 1)).length = 44 := rfl
    rw [e, e44, List.length_replicate, h1]
  refine ⟨h1, h2, h3, ?_⟩
  rw [h3, h2]
  decide

set_option maxHeartbeats 1000000 in
/-- C7 amended: for every duration `d ≥ 0` and sample rate `r`,
`create_silence_buffer` produces exactly `int(d * r) = ⌊d * r⌋` samples
(Python truncation, not rounding), all zero, in canonical mono 16-bit PCM
WAV format (PCM tag 1, 1 channel, 16 bits per sample, the requested sample
rate and the matching data-size field, both wrapped as the 4-byte header
fields the source writes). -/
theorem create_silence_buffer_truncates (d : ℚ) (r : Nat) (h : 0 ≤ d) :
    (numSilenceSamples d r : Int) = ⌊d * (r : ℚ)⌋ ∧
    (create_silence_buffer d r).drop 44 = List.replicate (numSilenceSamples d r * 2) 0 ∧
    wavNumChannels (create_silence_buffer d r) = 1 ∧
    wavAudioFormat (create_silence_buffer d r) = 1 ∧
    wavBitsPerSample (create_silence_buffer d r) = 16 ∧
    wavSampleRate (create_silence_buffer d r) = r % 4294967296 ∧
    wavDataSize (create_silence_buffer d r) = (numSilenceSamples d r * 2) % 4294967296 ∧
    (create_silence_buffer d r).length = 44 + numSilenceSamples d r * 2 := by
  have h0 : 0 ≤ d * (r : ℚ) := mul_nonneg h (by positivity)
  refine ⟨?_, rfl, rfl, rfl, rfl, ?_, ?_, ?_⟩
  · rw [numSilenceSamples, pyIntTrunc_eq_floor _ h0]
    exact Int.toNat_of_nonneg (Int.floor_nonneg.mpr h0)
  · have e : wavSampleRate (create_silence_buffer d r) =
        r % 256 + 256 * (r / 256 % 256 + 256 * (r / 256 / 256 % 256 +
          256 * (r / 256 / 256 / 256 % 256 + 256 * 0))) := rfl
    rw [e]
    omega
  · have e : wavDataSize (create_silence_buffer d r) =
        numSilenceSamples d r * 2 % 256 + 256 * (numSilenceSamples d r * 2 / 256 % 256 +
          256 * (numSilenceSamples d r * 2 / 256 / 256 % 256 +
            256 * (numSilenceSamples d r * 2 / 256 / 256 / 256 % 256 + 256 * 0))) := rfl
    rw [e]
    omega
  · have e : (create_silence_buffer d r).length =
        (silenceHeader r (numSilenceSamples d r)).length +
          (List.replicate (numSilenceSamples d r * 2) (0 : Nat)).length :=
      List.length_append _ _
    have e44 : (silenceHeader r (numSilenceSamples d r)).length = 44 := rfl
    rw [e, e44, List.length_replicate]

/-- Witness for C7 at duration 1/2 s and sample rate 4 Hz. -/
theorem create_silence_buffer_truncates_witness :
    (0 : ℚ) ≤ 1 / 2 ∧
    ((numSilenceSamples (1 / 2 : ℚ) 4 : Int) = ⌊(1 / 2 : ℚ) * ((4 : Nat) : ℚ)⌋ ∧
    (create_silence_buffer (1 / 2 : ℚ) 4).drop 44 =
      List.replicate (numSilenceSamples (1 / 2 : ℚ) 4 * 2) 0 ∧
    wavNumChannels (create_silence_buffer (1 / 2 : ℚ) 4) = 1 ∧
    wavAudioFormat (create_silence_buffer (1 / 2 : ℚ) 4) = 1 ∧
    wavBitsPerSample (create_silence_buffer (1 / 2 : ℚ) 4) = 16 ∧
    wavSampleRate (create_silence_buffer (1 / 2 : ℚ) 4) = 4 % 4294967296 ∧
    wavDataSize (create_silence_buffer (1 / 2 : ℚ) 4) =
      (numSilenceSamples (1 / 2 : ℚ) 4 * 2) % 4294967296 ∧
    (create_silence_buffer (1 / 2 : ℚ) 4).length = 44 + numSilenceSamples (1 / 2 : ℚ) 4 * 2) :=
  ⟨by norm_num, create_silence_buffer_truncates (1 / 2) 4 (by norm_num)⟩

theorem wavDataSection_length (b : List Nat) (h : 44 + wavDataSize b ≤ b.length) :
    (wavDataSection b).length = wavDataSize b := by
  simp only [wavDataSection, List.length_take, List.length_drop]
  omega

theorem concatHeader_drop (a b c d e f : Nat) (X : List Nat) :
    (concatHeader a b c d e f ++ X).drop 44 = X := by
  have h : (concatHeader a b c d e f).length = 44 := rfl
  rw [← h, List.drop_left]

/-- C1 counterexample: two well-formed WAV buffers with different sample
rates (24000 Hz vs 8000 Hz) are concatenated without any error:
`concatenate_wav_buffers` returns a combined 50-byte buffer holding both
data payloads back to back. No validation of sample rate, channel count or
bit depth ever happens. -/
theorem concatenate_mismatched_rates_combines :
    wavSampleRate (silenceHeader 24000 1 ++ [7, 8]) ≠
      wavSampleRate (silenceHeader 8000 2 ++ [9, 10, 11, 12]) ∧
    (concatenate_wav_buffers
        [silenceHeader 24000 1 ++ [7, 8], silenceHeader 8000 2 ++ [9, 10, 11, 12]]).drop 44 =
      [7, 8, 9, 10, 11, 12] ∧
    (concatenate_wav_buffers
        [silenceHeader 24000 1 ++ [7, 8], silenceHeader 8000 2 ++ [9, 10, 11, 12]]).length = 50 :=
  ⟨by decide, by decide, by decide⟩

set_option maxHeartbeats 1000000 in
/-- C1 amended: `concatenate_wav_buffers` performs no format validation at
all. For every list of two or more buffers — even with mismatched sample
rates — it produces a combined buffer: a 44-byte header whose format fields
are taken from the FIRST buffer only, followed by every buffer's data
section in input order; no error is possible. -/
theorem concatenate_no_format_validation (b1 b2 : List Nat) (rest : List (List Nat))
    (hwf : ∀ b ∈ b1 :: b2 :: rest, 44 + wavDataSize b ≤ b.length)
    (_hmm : wavSampleRate b2 ≠ wavSampleRate b1) :
    (concatenate_wav_buffers (b1 :: b2 :: rest)).drop 44 =
      wavDataSection b1 ++ wavDataSection b2 ++ (rest.map wavDataSection).flatten ∧
    (concatenate_wav_buffers (b1 :: b2 :: rest)).length =
      44 + ((b1 :: b2 :: rest).map wavDataSize).sum ∧
    wavSampleRate (concatenate_wav_buffers (b1 :: b2 :: rest)) =
      wavSampleRate b1 % 4294967296 ∧
    wavNumChannels (concatenate_wav_buffers (b1 :: b2 :: rest)) =
      wavNumChannels b1 % 65536 ∧
    wavBitsPerSample (concatenate_wav_buffers (b1 :: b2 :: rest)) =
      wavBitsPerSample b1 % 65536 ∧
    wavDataSize (concatenate_wav_buffers (b1 :: b2 :: rest)) =
      ((b1 :: b2 :: rest).map wavDataSize).sum % 4294967296 := by
  have hdef : concatenate_wav_buffers (b1 :: b2 :: rest) =
      concatHeader (wavSampleRate b1) (wavBitsPerSample b1) (wavNumChannels b1)
        (wavNumChannels b1 * wavBitsPerSample b1 / 8)
        (wavSampleRate b1 * (wavNumChannels b1 * wavBitsPerSample b1 / 8))
        (((b1 :: b2 :: rest).map wavDataSize).sum) ++
      ((b1 :: b2 :: rest).map wavDataSection).flatten := rfl
  refine ⟨?_, ?_, ?_, ?_, ?_, ?_⟩
  · rw [hdef, concatHeader_drop]
    simp [List.append_assoc]
  · rw [hdef, List.length_append]
    have h44 : (concatHeader (wavSampleRate b1) (wavBitsPerSample b1) (wavNumChannels b1)
        (wavNumChannels b1 * wavBitsPerSample b1 / 8)
        (wavSampleRate b1 * (wavNumChannels b1 * wavBitsPerSample b1 / 8))
        (((b1 :: b2 :: rest).map wavDataSize).sum)).length = 44 := rfl
    rw [h44, List.length_flatten]
    congr 1
    rw [List.map_map]
    have hmap : ∀ bs : List (List Nat), (∀ b ∈ bs, 44 + wavDataSize b ≤ b.length) →
        bs.map (List.length ∘ wavDataSection) = bs.map wavDataSize := by
      intro bs hbs
      induction bs with
      | nil => rfl
      | cons x xs ih =>
        simp only [List.map_cons]
        rw [ih (fun y hy => hbs y (by simp [hy]))]
        have := wavDataSection_length x (hbs x (by simp))
        simp [Function.comp, this]
    rw [hmap _ hwf]
  · have e : wavSampleRate (concatenate_wav_buffers (b1 :: b2 :: rest)) =
        wavSampleRate b1 % 256 + 256 * (wavSampleRate b1 / 256 % 256 +
          256 * (wavSampleRate b1 / 256 / 256 % 256 +
            256 * (wavSampleRate b1 / 256 / 256 / 256 % 256 + 256 * 0))) := rfl
    rw [e]
    omega
  · have e : wavNumChannels (concatenate_wav_buffers (b1 :: b2 :: rest)) =
        wavNumChannels b1 % 256 + 256 * (wavNumChannels b1 / 256 % 256 + 256 * 0) := rfl
    rw [e]
    omega
  · have e : wavBitsPerSample (concatenate_wav_buffers (b1 :: b2 :: rest)) =
        wavBitsPerSample b1 % 256 + 256 * (wavBitsPerSample b1 / 256 % 256 + 256 * 0) := rfl
    rw [e]
    omega
  · have e : wavDataSize (concatenate_wav_buffers (b1 :: b2 :: rest)) =
        ((b1 :: b2 :: rest).map wavDataSize).sum % 256 +
          256 * (((b1 :: b2 :: rest).map wavDataSize).sum / 256 % 256 +
            256 * (((b1 :: b2 :: rest).map wavDataSize).sum / 256 / 256 % 256 +
              256 * (((b1 :: b2 :: rest).map wavDataSize).sum / 256 / 256 / 256 % 256 +
                256 * 0))) := rfl
    rw [e]
    omega

/-- Witness for C1 at the two mismatched concrete buffers. -/
theorem concatenate_no_format_validation_witness :
    (∀ b ∈ [silenceHeader 24000 1 ++ [7, 8], silenceHeader 8000 2 ++ [9, 10, 11, 12]],
      44 + wavDataSize b ≤ b.length) ∧
    wavSampleRate (silenceHeader 8000 2 ++ [9, 10, 11, 12]) ≠
      wavSampleRate (silenceHeader 24000 1 ++ [7, 8]) ∧
    (concatenate_wav_buffers
        [silenceHeader 24000 1 ++ [7, 8], silenceHeader 8000 2 ++ [9, 10, 11, 12]]).drop 44 =
      wavDataSection (silenceHeader 24000 1 ++ [7, 8]) ++
        wavDataSection (silenceHeader 8000 2 ++ [9, 10, 11, 12]) ++
        (([] : List (List Nat)).map wavDataSection).flatten :=
  ⟨by decide, by decide,
    (concatenate_no_format_validation (silenceHeader 24000 1 ++ [7, 8])
      (silenceHeader 8000 2 ++ [9, 10, 11, 12]) [] (by decide) (by decide)).1⟩

/-- C3 counterexample: tagging is not idempotent. `preprocess_text` on
`"Hello"` with language `"en"` gives `"<en>Hello.</en>"`, but applying it
again gives `"<en>Hello.< en>."`: the second pass replaces the closing
tag's `/` with a space (the `'/' → ' '` entry of the replacements table)
and appends a period (the output ends in `>`, which is not terminal
punctuation). -/
theorem preprocess_text_not_idempotent :
    preprocess_text "Hello".data "en".data = "<en>Hello.</en>".data ∧
    preprocess_text (preprocess_text "Hello".data "en".data) "en".data =
      "<en>Hello.< en>.".data ∧
    preprocess_text (preprocess_text "Hello".data "en".data) "en".data ≠
      preprocess_text "Hello".data "en".data :=
  ⟨by decide, by decide, by decide⟩

/-- C3 amended: tagging is idempotent only at the level of tag wrapping:
the output of `preprocess_text` with language `"en"` always begins with a
language tag, so a second application never wraps another `<en>…</en>`
layer around it. As a string function it is NOT idempotent — re-applying
it replaces the `/` of the closing tag by a space and appends a trailing
period. -/
theorem preprocess_text_output_always_tagged (text : List Char) :
    has_language_tags (preprocess_text text "en".data) = true := by
  simp only [preprocess_text]
  by_cases h : has_language_tags (cleanupText text) = true
  · simp [h]
  · rw [if_neg (by simp [h])]
    rfl

/-- C6 counterexample: a pre-existing tag of a different language is NOT
stripped or replaced. Preprocessing `"<fr>Bonjour</fr>"` with requested
language `"en"` keeps the `<fr>` tag (while the slash replacement mangles
the closing tag to `< fr>` and a period is appended); the output does not
begin with — and nowhere contains — an `<en>` tag. -/
theorem foreign_tag_not_replaced :
    preprocess_text "<fr>Bonjour</fr>".data "en".data = "<fr>Bonjour< fr>.".data ∧
    (preprocess_text "<fr>Bonjour</fr>".data "en".data).take 4 = "<fr>".data ∧
    (preprocess_text "<fr>Bonjour</fr>".data "en".data).take 4 ≠ "<en>".data :=
  ⟨by decide, by decide, by decide⟩

/-- C6 amended: whenever the normalized text still begins with a language
tag (of any language), `preprocess_text` returns the cleaned text as-is:
the pre-existing tag is kept, the requested language is ignored, and no tag
of the requested language is added. -/
theorem pretagged_text_keeps_existing_tag (text lang : List Char)
    (h : has_language_tags (cleanupText text) = true) :
    preprocess_text text lang = cleanupText text := by
  simp only [preprocess_text]
  rw [if_pos h]

/-- Witness for C6 at the concrete pre-tagged text `"<fr>Bonjour</fr>"`
and requested language `"en"`. -/
theorem pretagged_text_keeps_existing_tag_witness :
    has_language_tags (cleanupText "<fr>Bonjour</fr>".data) = true ∧
    preprocess_text "<fr>Bonjour</fr>".data "en".data =
      cleanupText "<fr>Bonjour</fr>".data :=
  ⟨by decide, pretagged_text_keeps_existing_tag "<fr>Bonjour</fr>".data "en".data (by decide)⟩

/-- Every chunk emitted by the greedy packing is either within the length
bound or the strip of a single input sentence (possibly grown from the
restart of the else-branch). -/
theorem packSentences_mem (max_len : Nat) :
    ∀ (sentences : List (List Char)) (current c : List Char),
      c ∈ packSentences max_len sentences current →
      c.length ≤ max_len ∨ (∃ s ∈ sentences, c = pyStrip s) ∨ c = pyStrip current := by
  intro sentences
  induction sentences with
  | nil =>
    intro current c hc
    simp only [packSentences] at hc
    by_cases h : current = []
    · simp [h] at hc
    · rw [if_neg h] at hc
      simp at hc
      exact Or.inr (Or.inr hc)
  | cons s rest ih =>
    intro current c hc
    simp only [packSentences] at hc
    by_cases hfit : current.length + s.length + 1 ≤ max_len
    · rw [if_pos hfit] at hc
      rcases ih _ c hc with h | ⟨t, ht, he⟩ | he
      · exact Or.inl h
      · exact Or.inr (Or.inl ⟨t, by simp [ht], he⟩)
      · left
        rw [he]
        calc (pyStrip (current ++ (if current = [] then [] else [' ']) ++ s)).length
            ≤ (current ++ (if current = [] then [] else [' ']) ++ s).length :=
              pyStrip_length_le _
          _ ≤ max_len := by
              simp only [List.length_append]
              by_cases hcur : current = [] <;> simp [hcur] <;> omega
    · rw [if_neg hfit] at hc
      by_cases hcur : current = []
      · rw [if_pos hcur] at hc
        rcases ih _ c hc with h | ⟨t, ht, he⟩ | he
        · exact Or.inl h
        · exact Or.inr (Or.inl ⟨t, by simp [ht], he⟩)
        · exact Or.inr (Or.inl ⟨s, by simp, he⟩)
      · rw [if_neg hcur] at hc
        rcases List.mem_cons.mp hc with he | hc'
        · exact Or.inr (Or.inr he)
        · rcases ih _ c hc' with h | ⟨t, ht, he⟩ | he
          · exact Or.inl h
          · exact Or.inr (Or.inl ⟨t, by simp [ht], he⟩)
          · exact Or.inr (Or.inl ⟨s, by simp, he⟩)

/-- C4 counterexample: with `max_len = 5`, the single nine-character
sentence `"aaaa bbbb"` (two four-character words, none exceeding 5) is
returned as one oversized chunk — there is no word-level packing fallback
in `chunk_text`. -/
theorem chunk_exceeds_max_without_long_word :
    chunk_text "aaaa bbbb".data 5 = ["aaaa bbbb".data] ∧
    (∀ w ∈ wordsOf "aaaa bbbb".data, w.length ≤ 5) ∧
    5 < ("aaaa bbbb".data).length :=
  ⟨by decide, by decide, by decide⟩

/-- C4 amended: `chunk_text` never returns a chunk longer than `max_len`
unless a single SENTENCE exceeds `max_len`: every oversized chunk is the
stripped text of exactly one sentence of one paragraph, emitted whole
(there is no word-level fallback). -/
theorem chunk_oversized_is_single_sentence (text : List Char) (max_len : Nat)
    (c : List Char) (hc : c ∈ chunk_text text max_len) (hlen : max_len < c.length) :
    ∃ p ∈ (((chunkParagraphs text).map pyStrip).filter (fun p => p ≠ [])),
      ∃ s ∈ splitSentences p, c = pyStrip s := by
  simp only [chunk_text, List.mem_flatten, List.mem_map] at hc
  obtain ⟨l, ⟨p, hp, hl⟩, hcl⟩ := hc
  subst hl
  rcases packSentences_mem max_len _ _ c hcl with h | ⟨s, hs, he⟩ | he
  · omega
  · exact ⟨p, hp, s, hs, he⟩
  · rw [he] at hlen
    simp [pyStrip] at hlen

/-- Witness for C4 at the oversized single-sentence chunk `"aaaa bbbb"`
with `max_len = 5`. -/
theorem chunk_oversized_is_single_sentence_witness :
    "aaaa bbbb".data ∈ chunk_text "aaaa bbbb".data 5 ∧
    5 < ("aaaa bbbb".data).length ∧
    (∃ p ∈ (((chunkParagraphs "aaaa bbbb".data).map pyStrip).filter (fun p => p ≠ [])),
      ∃ s ∈ splitSentences p, "aaaa bbbb".data = pyStrip s) :=
  ⟨by decide, by decide,
    chunk_oversized_is_single_sentence "aaaa bbbb".data 5 "aaaa bbbb".data
      (by decide) (by decide)⟩
